import Mathlib

/-!
Verification development for the takecopter desktop persistence backend
(`src/apps/desktop/src-tauri/src/project.rs`).

The Rust module manages a project root directory holding a JSON manifest
(`project.json`) and one directory per story (`stories/<folderName>/`) that
contains an SQLite database `story.db` with a single `workspace` row.  The
development below is a shallow embedding of that module:

* Serde-parsed data types (`Story`, `SettingLibrary`, `Workspace`,
  `ProjectManifest`, export payloads) become plain Lean structures.  The
  uninterpreted `serde_json::Value` blobs stored in `settings`/`tree` become
  the inductive `JsonVal`.
* The filesystem state of a project root becomes `Root`: the contents of
  `project.json` (`manifestFile`) plus a map from story folder name to the
  state of that folder's `story.db` file (`dirs`).  The contents of the
  manifest file are classified the way `serde_json::from_str` classifies
  them (parses in the current schema / parses only in the legacy schema /
  parses as neither); the JSON text columns of the workspace row are
  classified by whether they parse into the target Rust type.
* Each Rust function becomes a Lean function of the same name.  Stateful
  functions take the `Root` and return the updated `Root` together with an
  `Except String` result, mirroring the `Result<_, String>` channel; an
  early `return Err(...)` in Rust becomes a pair of the state reached so
  far and `.error msg`.  Calls to `Utc::now()` / `Uuid::new_v4()` /
  `timestamp_millis()` become explicit parameters (`now`, `id`, `millis`).
  Environment-level I/O failures (a failing `fs::write`, an SQLite error)
  are outside the model: the corresponding model writes always succeed.
  The advisory `.lock` file, the `exports/` directory, and the
  `assets/images`/`assets/videos` subdirectories are not part of the
  modelled state; no claim mentions them.
-/

namespace Takecopter

/-- Mirrors `CURRENT_SCHEMA_VERSION: i64 = 1`. -/
def CURRENT_SCHEMA_VERSION : Int := 1

/-- Uninterpreted JSON value, standing in for `serde_json::Value`.  The
backend persists these blobs without inspecting them, so the exact carrier
of numbers is irrelevant; `Int` is used. -/
inductive JsonVal where
  | null : JsonVal
  | bool (b : Bool) : JsonVal
  | num (n : Int) : JsonVal
  | str (s : String) : JsonVal
  | arr (xs : List JsonVal) : JsonVal
  | obj (fields : List (String × JsonVal)) : JsonVal

/-- Mirrors `struct Story`. -/
structure Story where
  id : String
  title : String
  description : String
  updatedAt : String
  coverColor : String

/-- Mirrors `struct SettingTag`. -/
structure SettingTag where
  name : String
  color : String

/-- Mirrors `struct SettingCustomField`. -/
structure SettingCustomField where
  name : String
  value : String
  size : Option String

/-- Mirrors `struct SettingTemplatePreset`; the Rust field `r#type` is
named `rtype` here. -/
structure SettingTemplatePreset where
  rtype : String
  summary : Option String
  content : Option String
  imageUrl : Option String
  category : Option String
  tags : List SettingTag
  customFields : List SettingCustomField
  color : Option String

/-- Mirrors `struct SettingTemplate`. -/
structure SettingTemplate where
  id : String
  name : String
  preset : SettingTemplatePreset

/-- Mirrors `struct SettingLibrary`. -/
structure SettingLibrary where
  tags : List SettingTag
  categories : List String
  templates : List SettingTemplate

/-- Mirrors `fn default_library()`. -/
def default_library : SettingLibrary :=
  { tags := []
    categories := ["世界观", "角色", "道具"]
    templates := [] }

/-- Mirrors `struct Workspace`. -/
structure Workspace where
  settings : List JsonVal
  tree : List JsonVal
  library : SettingLibrary

/-- Mirrors `struct ProjectData`.  The Rust `HashMap<String, Workspace>`
is represented as an association list in insertion order; `load_project_data`
inserts one binding per story. -/
structure ProjectData where
  stories : List Story
  workspaces : List (String × Workspace)
  sharedLibrary : SettingLibrary

/-- Mirrors `struct CreateStoryInput`. -/
structure CreateStoryInput where
  title : String
  description : String

/-- Mirrors `struct ExportedProjectData`. -/
structure ExportedProjectData where
  app : String
  schemaVersion : Int
  exportedAt : String
  data : ProjectData

/-- Mirrors `struct ExportedStoryData`. -/
structure ExportedStoryData where
  app : String
  schemaVersion : Int
  exportedAt : String
  story : Story
  workspace : Workspace

/-- Mirrors `struct StoryManifestEntry`. -/
structure StoryManifestEntry where
  story : Story
  folderName : String

/-- Mirrors `struct ProjectManifest`. -/
structure ProjectManifest where
  app : String
  schemaVersion : Int
  createdAt : String
  sharedLibrary : SettingLibrary
  stories : List StoryManifestEntry

/-- Mirrors `struct LegacyProjectManifest` (flat story list, no folder
names, no shared library). -/
structure LegacyProjectManifest where
  app : String
  schemaVersion : Int
  createdAt : String
  stories : List Story

/-! ## Strings: trimming, slugification, lexicographic order -/

/-- Rust `str::trim`: drop whitespace from both ends.  (Lean's
`Char.isWhitespace` covers the ASCII whitespace characters; the full
Unicode whitespace table of Rust's `char::is_whitespace` is abstracted to
it — the claims only distinguish blank from non-blank titles.) -/
def trimString (s : String) : String :=
  (((s.toList.dropWhile Char.isWhitespace).reverse.dropWhile
      Char.isWhitespace).reverse).asString

/-- Rust `u8::is_ascii_alphanumeric` on a char: `0-9`, `A-Z`, `a-z`. -/
def isAsciiAlphanumeric (c : Char) : Bool :=
  (48 ≤ c.toNat && c.toNat ≤ 57) ||
    (65 ≤ c.toNat && c.toNat ≤ 90) ||
    (97 ≤ c.toNat && c.toNat ≤ 122)

/-- Rust `char::to_ascii_lowercase`: shift `A-Z` down by 32, leave
everything else unchanged. -/
def toAsciiLowercase (c : Char) : Char :=
  if 65 ≤ c.toNat && c.toNat ≤ 90 then Char.ofNat (c.toNat + 32) else c

/-- One iteration of the character loop in `slugify_story_title`: the
accumulator is the slug built so far plus the `last_dash` flag. -/
def slugifyStep (acc : List Char × Bool) (ch : Char) : List Char × Bool :=
  if isAsciiAlphanumeric ch then (acc.1 ++ [toAsciiLowercase ch], false)
  else if !acc.2 then (acc.1 ++ ['-'], true)
  else acc

/-- Mirrors `fn slugify_story_title`: lowercase the ASCII alphanumerics,
collapse every other run of characters to a single `-`, trim `-` from both
ends (`trim_matches('-')`), and fall back to `"story"` when empty. -/
def slugify_story_title (title : String) : String :=
  let slug := (title.toList.foldl slugifyStep ([], false)).1
  let slug := ((slug.dropWhile (· == '-')).reverse.dropWhile (· == '-')).reverse
  if slug.isEmpty then "story" else slug.asString

/-- Mirrors `fn make_story_folder_name`: `format!("{}-{}", slugify(title),
first 8 chars of story_id)`. -/
def make_story_folder_name (title story_id : String) : String :=
  let short_id := (story_id.toList.take 8).asString
  slugify_story_title title ++ "-" ++ short_id

/-- Boolean lexicographic "less or equal" on char lists, by code point.
This is the order Rust's `Ord for str` induces (UTF-8 byte order coincides
with code-point order). -/
def charListLe : List Char → List Char → Bool
  | [], _ => true
  | _ :: _, [] => false
  | a :: as, b :: bs =>
    if a.toNat < b.toNat then true
    else if b.toNat < a.toNat then false
    else charListLe as bs

/-- Rust `String` comparison (`Ord::cmp` giving `Less` or `Equal`). -/
def strLe (a b : String) : Bool := charListLe a.toList b.toList

/-! ## Filesystem state of a project root -/

/-- How a stored JSON text column behaves under `serde_json::from_str`
into its target Rust type: either it parses to a value or it does not. -/
inductive ColumnVal (α : Type) where
  | good (v : α) : ColumnVal α
  | bad : ColumnVal α

/-- The single `workspace` row (id = 1) of a story database: the three
JSON text columns, `library_json` possibly NULL. -/
structure DbRow where
  settings_json : ColumnVal (List JsonVal)
  tree_json : ColumnVal (List JsonVal)
  library_json : Option (ColumnVal SettingLibrary)

/-- State of a `story.db` path: the file is missing, or it exists and its
`workspace` table holds an optional row with id 1. -/
inductive DbFile where
  | missing : DbFile
  | present (row : Option DbRow) : DbFile

/-- Contents of `project.json` as classified by the two
`serde_json::from_str` attempts in `read_manifest`: parses in the current
schema, parses only in the legacy schema, or parses as neither. -/
inductive ManifestRaw where
  | current (m : ProjectManifest) : ManifestRaw
  | legacy (m : LegacyProjectManifest) : ManifestRaw
  | invalid : ManifestRaw

/-- Filesystem state of one project root: the manifest file (`none` when
`project.json` does not exist) and, for each folder name under `stories/`,
whether that directory exists (`some`) and the state of its `story.db`. -/
structure Root where
  manifestFile : Option ManifestRaw
  dirs : String → Option DbFile

/-- A root directory with no manifest and no story directories. -/
def emptyRoot : Root := { manifestFile := none, dirs := fun _ => none }

/-- `stories/<f>` exists as a directory. -/
def dirExists (root : Root) (f : String) : Bool := (root.dirs f).isSome

/-- State of the `story.db` file under `stories/<f>`; when the directory
itself is absent the database path does not exist. -/
def getDb (root : Root) (f : String) : DbFile :=
  (root.dirs f).getD .missing

/-- `stories/<f>/story.db` exists as a file. -/
def dbExists (root : Root) (f : String) : Bool :=
  match getDb root f with
  | .present _ => true
  | .missing => false

/-- Write the database state under `stories/<f>`, creating the directory
when needed (`fs::create_dir_all` in `open_story_db`). -/
def setDb (root : Root) (f : String) (dbf : DbFile) : Root :=
  { root with dirs := fun n => if n = f then some dbf else root.dirs n }

/-- `fs::rename` of a whole story directory, as performed by
`rename_story` (the target was checked to not exist). -/
def renameDir (root : Root) (old new : String) : Root :=
  { root with dirs := fun n =>
      if n = new then root.dirs old
      else if n = old then none
      else root.dirs n }

/-- The legacy-layout migration step of `load_project_data`:
`fs::create_dir_all` on the new story directory, then `fs::rename` of the
`story.db` file from the legacy per-id directory into it.  The legacy
directory itself remains (only the file moves). -/
def moveDb (root : Root) (src dst : String) : Root :=
  let content := getDb root src
  let root1 := setDb root src .missing
  setDb root1 dst content

/-! ## Error messages (the Rust module reports errors as strings; the
dynamic suffix `: {error}` appended from the underlying I/O or serde
error is abstracted away, keeping the fixed text) -/

def manifestIoMsg : String := "读取项目元信息失败"
def manifestParseMsg : String := "解析项目元信息失败"
def manifestInvalidSourceMsg : String := "无效的项目目录来源"
def wsParseSettingsMsg : String := "解析故事设定失败"
def wsParseTreeMsg : String := "解析故事树结构失败"
def blankTitleMsg : String := "故事名称不能为空"
def storyNotFoundMsg : String := "故事不存在"
def conflictMsg : String := "目标故事目录已存在，请使用其他名称"
def rootMissingMsg : String := "项目目录不存在"
def notAProjectMsg : String := "未找到 project.json，请先创建项目目录或选择有效项目目录"
def importProjectSourceMsg : String := "无效的项目文件来源"
def importProjectVersionMsg : String := "项目版本过新，请升级应用后再导入"
def importStorySourceMsg : String := "无效的故事文件来源"
def importStoryVersionMsg : String := "故事版本过新，请升级应用后再导入"

/-! ## Manifest store -/

/-- The empty manifest `ensure_root_layout` writes when `project.json`
does not exist. -/
def emptyManifest (now : String) : ProjectManifest :=
  { app := "takecopter"
    schemaVersion := CURRENT_SCHEMA_VERSION
    createdAt := now
    sharedLibrary := default_library
    stories := [] }

/-- Mirrors `fn ensure_root_layout` on the modelled state: writes an empty
manifest only when none exists.  (The `stories/`/`exports/` directories
and the `.lock` marker it also creates are outside the modelled state.) -/
def ensure_root_layout (root : Root) (now : String) : Root :=
  match root.manifestFile with
  | none => { root with manifestFile := some (.current (emptyManifest now)) }
  | some _ => root

/-- The legacy fallback branch of `read_manifest`: synthesize folder names
from title + id and install the default shared library. -/
def migrateLegacy (legacy : LegacyProjectManifest) : ProjectManifest :=
  { app := legacy.app
    schemaVersion := legacy.schemaVersion
    createdAt := legacy.createdAt
    sharedLibrary := default_library
    stories := legacy.stories.map (fun story =>
      { folderName := make_story_folder_name story.title story.id
        story := story }) }

/-- Mirrors `fn read_manifest`: read `project.json`, parse in the current
schema, fall back to the legacy schema, then reject a foreign `app`. -/
def read_manifest (root : Root) : Except String ProjectManifest :=
  match root.manifestFile with
  | none => .error manifestIoMsg
  | some .invalid => .error manifestParseMsg
  | some (.current m) =>
    if m.app = "takecopter" then .ok m else .error manifestInvalidSourceMsg
  | some (.legacy l) =>
    let m := migrateLegacy l
    if m.app = "takecopter" then .ok m else .error manifestInvalidSourceMsg

/-- Mirrors `fn write_manifest`: serialize and overwrite `project.json`. -/
def write_manifest (root : Root) (manifest : ProjectManifest) : Root :=
  { root with manifestFile := some (.current manifest) }

/-! ## Workspace store -/

/-- The default workspace returned for a missing database file or row. -/
def defaultWorkspace : Workspace :=
  { settings := [], tree := [], library := default_library }

/-- Mirrors `fn read_workspace`.  Returns the (unchanged) state of the
database file together with the result: a missing file or row yields the
default workspace; a malformed `settings_json`/`tree_json` is an error; a
NULL or malformed `library_json` falls back to the default library. -/
def read_workspace (dbf : DbFile) : DbFile × Except String Workspace :=
  match dbf with
  | .missing => (.missing, .ok defaultWorkspace)
  | .present none => (.present none, .ok defaultWorkspace)
  | .present (some row) =>
    (.present (some row),
      match row.settings_json with
      | .bad => .error wsParseSettingsMsg
      | .good settings =>
        match row.tree_json with
        | .bad => .error wsParseTreeMsg
        | .good tree =>
          let library :=
            match row.library_json with
            | some (.good lib) => lib
            | some .bad => default_library
            | none => default_library
          .ok { settings := settings, tree := tree, library := library })

/-- The row `write_workspace` stores: all three columns serialized from
the workspace (serialization always re-parses to the same value). -/
def serializeRow (w : Workspace) : DbRow :=
  { settings_json := .good w.settings
    tree_json := .good w.tree
    library_json := some (.good w.library) }

/-- Mirrors `fn write_workspace`: upsert the single row, creating the
directory and database on the way (`open_story_db`). -/
def write_workspace (root : Root) (folder : String) (w : Workspace) : Root :=
  setDb root folder (.present (some (serializeRow w)))

/-! ## Manifest lookup helpers -/

/-- Mirrors `fn find_story_entry` (`iter().find` on the story id). -/
def find_story_entry (manifest : ProjectManifest) (story_id : String) :
    Option StoryManifestEntry :=
  manifest.stories.find? (fun e => e.story.id == story_id)

/-- Update the first entry satisfying `p`, as `iter_mut().find` followed by
mutation does in `find_story_entry_mut` callers. -/
def updateFirst {α : Type} (p : α → Bool) (f : α → α) : List α → List α
  | [] => []
  | e :: rest => if p e then f e :: rest else e :: updateFirst p f rest

/-- `HashMap::insert`: replace the binding when the key is present,
otherwise add it. -/
def insertAssoc (l : List (String × Workspace)) (k : String) (v : Workspace) :
    List (String × Workspace) :=
  if l.any (fun p => p.1 == k) then
    l.map (fun p => if p.1 == k then (k, v) else p)
  else l ++ [(k, v)]

/-- `HashMap::get` on the association-list representation. -/
def lookupAssoc (l : List (String × Workspace)) (k : String) : Option Workspace :=
  (l.find? (fun p => p.1 == k)).map (·.2)

/-! ## Loading project data -/

/-- The comparator of `load_project_data`'s
`sort_by(|a, b| b.story.updated_at.cmp(&a.story.updated_at))`:
descending in `updatedAt`. -/
def entryLe (a b : StoryManifestEntry) : Bool :=
  strLe b.story.updatedAt a.story.updatedAt

/-- Rust's stable `sort_by` on the manifest's story entries. -/
def sortStories (entries : List StoryManifestEntry) : List StoryManifestEntry :=
  entries.mergeSort entryLe

/-- The per-story loop of `load_project_data`: migrate a database that
still lives under the legacy per-id directory, then read the workspace and
record it under the story id. -/
def loadWorkspacesLoop (root : Root) (acc : List (String × Workspace)) :
    List StoryManifestEntry → Root × Except String (List (String × Workspace))
  | [] => (root, .ok acc)
  | e :: rest =>
    let root1 :=
      if !dbExists root e.folderName && dbExists root e.story.id then
        moveDb root e.story.id e.folderName
      else root
    match (read_workspace (getDb root1 e.folderName)).2 with
    | .error msg => (root1, .error msg)
    | .ok w => loadWorkspacesLoop root1 (insertAssoc acc e.story.id w) rest

/-- Mirrors `fn load_project_data`: read the manifest, sort stories by
`updatedAt` descending, migrate legacy story databases, and collect every
workspace keyed by story id. -/
def load_project_data (root : Root) : Root × Except String ProjectData :=
  match read_manifest root with
  | .error e => (root, .error e)
  | .ok manifest =>
    let sorted := sortStories manifest.stories
    match loadWorkspacesLoop root [] sorted with
    | (root1, .error e) => (root1, .error e)
    | (root1, .ok workspaces) =>
      (root1, .ok
        { stories := sorted.map (·.story)
          workspaces := workspaces
          sharedLibrary := manifest.sharedLibrary })

/-! ## Project service commands

Each command takes the active root's state (the `require_active_root` /
`State<ProjectState>` plumbing resolves to it) plus explicit `now` / `id`
/ `millis` parameters standing for `now_rfc3339()`, `Uuid::new_v4()` and
`Utc::now().timestamp_millis()`. -/

/-- The fixed 5-color palette of `create_story`. -/
def coverColors : List String :=
  ["var(--coral-400)", "var(--violet-400)", "var(--teal-400)",
   "var(--amber-400)", "var(--rose-400)"]

/-- Mirrors `fn create_story`. -/
def create_story (root : Root) (now id : String) (millis : Int)
    (input : CreateStoryInput) : Root × Except String Story :=
  let root := ensure_root_layout root now
  match read_manifest root with
  | .error e => (root, .error e)
  | .ok manifest =>
    let index := millis.natAbs % coverColors.length
    let story : Story :=
      { id := id
        title := input.title
        description := input.description
        updatedAt := now
        coverColor := coverColors.getD index "" }
    let folder_name := make_story_folder_name story.title story.id
    let root := write_workspace root folder_name defaultWorkspace
    let manifest := { manifest with
      stories := manifest.stories ++ [{ story := story, folderName := folder_name }] }
    let root := write_manifest root manifest
    (root, .ok story)

/-- The manifest-entry mutation performed through `find_story_entry_mut`
in `rename_story`: on the (first) entry with the given id, set the folder
name (only when the recomputed name differed, `setFolder`), the cleaned
title, and the timestamp. -/
def renameUpdatedStories (stories : List StoryManifestEntry)
    (story_id clean_title now next_folder_name : String) (setFolder : Bool) :
    List StoryManifestEntry :=
  updateFirst (fun e => e.story.id == story_id)
    (fun e =>
      { folderName := if setFolder then next_folder_name else e.folderName
        story := { e.story with title := clean_title, updatedAt := now } })
    stories

/-- Mirrors `fn rename_story`: reject a blank title, recompute the folder
name, and when it changed and the old directory exists, rename it on disk
after checking the target does not exist; then rewrite the manifest. -/
def rename_story (root : Root) (now story_id title : String) :
    Root × Except String Story :=
  let clean_title := trimString title
  if clean_title = "" then (root, .error blankTitleMsg)
  else
    match read_manifest root with
    | .error e => (root, .error e)
    | .ok manifest =>
      match find_story_entry manifest story_id with
      | none => (root, .error storyNotFoundMsg)
      | some entry =>
        let old_folder_name := entry.folderName
        let next_folder_name := make_story_folder_name clean_title story_id
        let updated_story : Story :=
          { entry.story with title := clean_title, updatedAt := now }
        if old_folder_name ≠ next_folder_name then
          if dirExists root old_folder_name then
            if dirExists root next_folder_name then
              (root, .error conflictMsg)
            else
              let root := renameDir root old_folder_name next_folder_name
              let stories := renameUpdatedStories manifest.stories story_id
                clean_title now next_folder_name true
              let root := write_manifest root { manifest with stories := stories }
              (root, .ok updated_story)
          else
            let stories := renameUpdatedStories manifest.stories story_id
              clean_title now next_folder_name true
            let root := write_manifest root { manifest with stories := stories }
            (root, .ok updated_story)
        else
          let stories := renameUpdatedStories manifest.stories story_id
            clean_title now next_folder_name false
          let root := write_manifest root { manifest with stories := stories }
          (root, .ok updated_story)

/-- Mirrors `fn update_settings`: replace only the `settings` half of the
workspace row, keep `tree` and `library` from the current row, bump the
story's `updatedAt`. -/
def update_settings (root : Root) (now story_id : String)
    (settings : List JsonVal) : Root × Except String Unit :=
  match read_manifest root with
  | .error e => (root, .error e)
  | .ok manifest =>
    match find_story_entry manifest story_id with
    | none => (root, .error storyNotFoundMsg)
    | some entry =>
      match (read_workspace (getDb root entry.folderName)).2 with
      | .error e => (root, .error e)
      | .ok current =>
        let next : Workspace :=
          { settings := settings, tree := current.tree, library := current.library }
        let root := write_workspace root entry.folderName next
        let manifest := { manifest with
          stories := updateFirst (fun e => e.story.id == story_id)
            (fun e => { e with story := { e.story with updatedAt := now } })
            manifest.stories }
        let root := write_manifest root manifest
        (root, .ok ())

/-- Mirrors `fn update_tree`: replace only the `tree` half, keep
`settings` and `library`. -/
def update_tree (root : Root) (now story_id : String)
    (tree : List JsonVal) : Root × Except String Unit :=
  match read_manifest root with
  | .error e => (root, .error e)
  | .ok manifest =>
    match find_story_entry manifest story_id with
    | none => (root, .error storyNotFoundMsg)
    | some entry =>
      match (read_workspace (getDb root entry.folderName)).2 with
      | .error e => (root, .error e)
      | .ok current =>
        let next : Workspace :=
          { settings := current.settings, tree := tree, library := current.library }
        let root := write_workspace root entry.folderName next
        let manifest := { manifest with
          stories := updateFirst (fun e => e.story.id == story_id)
            (fun e => { e with story := { e.story with updatedAt := now } })
            manifest.stories }
        let root := write_manifest root manifest
        (root, .ok ())

/-- Mirrors `fn export_project`. -/
def export_project (root : Root) (now : String) :
    Root × Except String ExportedProjectData :=
  match load_project_data root with
  | (root1, .error e) => (root1, .error e)
  | (root1, .ok data) =>
    (root1, .ok
      { app := "takecopter"
        schemaVersion := CURRENT_SCHEMA_VERSION
        exportedAt := now
        data := data })

/-- Mirrors `fn import_project`: validate `app` and `schemaVersion` before
touching anything, then rebuild the manifest's stories from the payload in
order (recomputing folder names) and write each story's workspace from the
payload's map, defaulting to an empty workspace. -/
def import_project (root : Root) (now : String) (payload : ExportedProjectData) :
    Root × Except String Unit :=
  if payload.app ≠ "takecopter" then (root, .error importProjectSourceMsg)
  else if payload.schemaVersion > CURRENT_SCHEMA_VERSION then
    (root, .error importProjectVersionMsg)
  else
    let root := ensure_root_layout root now
    match read_manifest root with
    | .error e => (root, .error e)
    | .ok manifest =>
      let manifest := { manifest with
        sharedLibrary := payload.data.sharedLibrary
        stories := payload.data.stories.map (fun story =>
          { story := story
            folderName := make_story_folder_name story.title story.id }) }
      let root := write_manifest root manifest
      let root := manifest.stories.foldl (fun r e =>
        write_workspace r e.folderName
          ((lookupAssoc payload.data.workspaces e.story.id).getD defaultWorkspace)) root
      (root, .ok ())

/-- Mirrors `fn import_story`: validate `app`/`schemaVersion`; keep the
existing folder name when the story id is already present, otherwise
recompute it; replace or append the manifest entry, then write the
payload's workspace. -/
def import_story (root : Root) (now : String) (payload : ExportedStoryData) :
    Root × Except String Unit :=
  if payload.app ≠ "takecopter" then (root, .error importStorySourceMsg)
  else if payload.schemaVersion > CURRENT_SCHEMA_VERSION then
    (root, .error importStoryVersionMsg)
  else
    let root := ensure_root_layout root now
    match read_manifest root with
    | .error e => (root, .error e)
    | .ok manifest =>
      let folder_name :=
        match find_story_entry manifest payload.story.id with
        | some existing => existing.folderName
        | none => make_story_folder_name payload.story.title payload.story.id
      let manifest :=
        match find_story_entry manifest payload.story.id with
        | some _ => { manifest with
            stories := updateFirst (fun e => e.story.id == payload.story.id)
              (fun _ => { story := payload.story, folderName := folder_name })
              manifest.stories }
        | none => { manifest with
            stories := manifest.stories ++
              [{ story := payload.story, folderName := folder_name }] }
      let root := write_manifest root manifest
      let root := write_workspace root folder_name payload.workspace
      (root, .ok ())

/-- The directory a caller asks `open_project_root` to open: either it
does not exist on disk, or it exists with some root contents. -/
inductive TargetDir where
  | absent : TargetDir
  | present (root : Root) : TargetDir

/-- Mirrors `fn open_project_root`: the trimmed path must exist, must
already contain a `project.json`, and only then is the layout ensured, the
manifest read, and the active root recorded (in-memory and in the
selection file, both modelled by the `Option String`). -/
def open_project_root (root_path : String) (target : TargetDir) (now : String)
    (active : Option String) : (TargetDir × Option String) × Except String Unit :=
  match target with
  | .absent => ((.absent, active), .error rootMissingMsg)
  | .present r =>
    match r.manifestFile with
    | none => ((.present r, active), .error notAProjectMsg)
    | some _ =>
      let r1 := ensure_root_layout r now
      match read_manifest r1 with
      | .error e => ((.present r1, active), .error e)
      | .ok _ => ((.present r1, some (trimString root_path)), .ok ())

/-! ## Concrete fixtures used by witnesses and counterexamples -/

/-- A sample non-empty workspace. -/
def wsA : Workspace :=
  { settings := [.str "alpha"], tree := [.num 3], library := default_library }

/-- A sample story whose folder name is `old-aaaaaaaa`. -/
def storyA : Story :=
  { id := "aaaaaaaa-1111", title := "Old", description := "d"
    updatedAt := "2024-01-01T00:00:00Z", coverColor := "var(--teal-400)" }

/-- A one-story manifest for `storyA`. -/
def manifestA : ProjectManifest :=
  { app := "takecopter", schemaVersion := 1, createdAt := "2024"
    sharedLibrary := default_library
    stories := [{ story := storyA, folderName := "old-aaaaaaaa" }] }

/-- A root holding `manifestA` with the story database in its slug-based
folder. -/
def rootA : Root :=
  { manifestFile := some (.current manifestA)
    dirs := fun n =>
      if n = "old-aaaaaaaa" then some (.present (some (serializeRow wsA)))
      else none }

/-- The export of `rootA` at time `T1`. -/
def payloadA : ExportedProjectData :=
  { app := "takecopter", schemaVersion := 1, exportedAt := "T1"
    data := { stories := [storyA]
              workspaces := [("aaaaaaaa-1111", wsA)]
              sharedLibrary := default_library } }

/-- Two stories whose folders are both on disk; renaming the second to
`"New"` would collide with the first one's folder. -/
def manifestC2 : ProjectManifest :=
  { app := "takecopter", schemaVersion := 1, createdAt := "2024"
    sharedLibrary := default_library
    stories :=
      [{ story := { id := "aaaaaaaa-1111", title := "New", description := ""
                    updatedAt := "2024-01-01T00:00:00Z", coverColor := "c" }
         folderName := "new-aaaaaaaa" },
       { story := { id := "aaaaaaaa-3333", title := "Other", description := ""
                    updatedAt := "2024-01-03T00:00:00Z", coverColor := "c" }
         folderName := "other-aaaaaaaa" }] }

/-- Root for the rename-conflict scenario: both story folders exist. -/
def rootC2 : Root :=
  { manifestFile := some (.current manifestC2)
    dirs := fun n =>
      if n = "new-aaaaaaaa" ∨ n = "other-aaaaaaaa" then some (.present none)
      else none }

/-- One-story manifest used for the rename-without-directory scenario. -/
def manifestC9 : ProjectManifest :=
  { app := "takecopter", schemaVersion := 1, createdAt := "2024"
    sharedLibrary := default_library
    stories :=
      [{ story := { id := "aaaaaaaa-1111", title := "Old", description := ""
                    updatedAt := "2024-01-01T00:00:00Z", coverColor := "c" }
         folderName := "old-aaaaaaaa" }] }

/-- Root where the story's own folder is missing on disk but a directory
with the would-be target name `new-aaaaaaaa` already exists. -/
def rootC9 : Root :=
  { manifestFile := some (.current manifestC9)
    dirs := fun n => if n = "new-aaaaaaaa" then some (.present none) else none }

/-- Row whose `settings_json` does not parse as a JSON array. -/
def rowBadSettings : DbRow :=
  { settings_json := .bad, tree_json := .good []
    library_json := some (.good default_library) }

/-- Row whose `tree_json` does not parse as a JSON array. -/
def rowBadTree : DbRow :=
  { settings_json := .good [.null], tree_json := .bad, library_json := none }

/-- Row with well-formed settings/tree and a NULL `library_json`. -/
def rowLibNull : DbRow :=
  { settings_json := .good [], tree_json := .good [], library_json := none }

/-- Row with well-formed settings/tree and a malformed `library_json`. -/
def rowLibBad : DbRow :=
  { settings_json := .good [.str "x"], tree_json := .good [.num 1]
    library_json := some .bad }

/-- A non-default library. -/
def libX : SettingLibrary :=
  { tags := [{ name := "tag1", color := "red" }], categories := ["cat1"]
    templates := [] }

/-- Row with well-formed settings/tree and a well-formed `library_json`. -/
def rowLibGood : DbRow :=
  { settings_json := .good [], tree_json := .good [], library_json := some (.good libX) }

/-- An import payload one schema version ahead of the binary. -/
def payloadVer2 : ExportedProjectData :=
  { app := "takecopter", schemaVersion := 2, exportedAt := "T"
    data := { stories := [], workspaces := [], sharedLibrary := default_library } }

/-- An import payload from a foreign application. -/
def payloadBadApp : ExportedProjectData :=
  { app := "other", schemaVersion := 1, exportedAt := "T"
    data := { stories := [], workspaces := [], sharedLibrary := default_library } }

/-- An existing directory that contains no `project.json`. -/
def rootNoManifest : Root := { manifestFile := none, dirs := fun _ => none }

/-- A legacy-schema manifest (flat story list). -/
def legacyA : LegacyProjectManifest :=
  { app := "takecopter", schemaVersion := 1, createdAt := "2024"
    stories := [storyA] }

/-- Root whose manifest already names the slug-based folder but whose
story database still lives under the legacy per-id directory. -/
def rootLegacyDb : Root :=
  { manifestFile := some (.current manifestA)
    dirs := fun n =>
      if n = "aaaaaaaa-1111" then some (.present (some (serializeRow wsA)))
      else none }

/-- Reachable state: one story created from an empty root. -/
def c5now : String := "2024-01-01T00:00:00Z"

/-- Reachable root after `create_story` of a story titled `"Old"`. -/
def c5root1 : Root :=
  (create_story emptyRoot c5now "aaaaaaaa-1111" 0
    { title := "Old", description := "" }).1

/-- A story-import payload carrying the same id as the created story but a
different title. -/
def c5payload : ExportedStoryData :=
  { app := "takecopter", schemaVersion := 1, exportedAt := "T"
    story := { id := "aaaaaaaa-1111", title := "New", description := ""
               updatedAt := "2024-01-02T00:00:00Z", coverColor := "c" }
    workspace := defaultWorkspace }

/-- Reachable root after importing `c5payload` over the created story. -/
def c5root2 : Root :=
  (import_story c5root1 "2024-01-02T00:00:00Z" c5payload).1

/-- Reachable root after creating two stories with the same title whose
ids share the first 8 characters: both entries get the same folder name. -/
def c5dup : Root :=
  (create_story
    (create_story emptyRoot c5now "11111111-aaaa" 0
      { title := "A", description := "" }).1
    c5now "11111111-bbbb" 1 { title := "A", description := "" }).1

/-- The per-entry folder-name invariant of the manifest: the folder name
is the deterministic projection of title and id. -/
def entryFolderInv (e : StoryManifestEntry) : Prop :=
  e.folderName = make_story_folder_name e.story.title e.story.id

/-- Footprint disjointness of two manifest entries: ids, folder names, and
id-vs-folder-name are pairwise different. -/
def entriesDisjoint (a b : StoryManifestEntry) : Prop :=
  a.story.id ≠ b.story.id ∧ a.folderName ≠ b.folderName ∧
    a.story.id ≠ b.folderName ∧ a.folderName ≠ b.story.id

/-- The root state after `load_project_data` migrates `rootLegacyDb`'s
story database into the slug-based folder. -/
def c6root' : Root := moveDb rootLegacyDb "aaaaaaaa-1111" "old-aaaaaaaa"

/-- The project data loaded from `rootLegacyDb`. -/
def c6data : ProjectData :=
  { stories := [storyA], workspaces := [("aaaaaaaa-1111", wsA)]
    sharedLibrary := default_library }

/-- The story created in `c5root1`. -/
def c5story1 : Story :=
  { id := "aaaaaaaa-1111", title := "Old", description := ""
    updatedAt := c5now, coverColor := "var(--coral-400)" }

def c5m1 : ProjectManifest :=
  { app := "takecopter", schemaVersion := CURRENT_SCHEMA_VERSION
    createdAt := c5now, sharedLibrary := default_library
    stories := [{ story := c5story1, folderName := "old-aaaaaaaa" }] }

def c5storyRen : Story :=
  { id := "aaaaaaaa-1111", title := "New", description := ""
    updatedAt := "T2", coverColor := "c" }

def c5rootRen : Root := (rename_story rootC9 "T2" "aaaaaaaa-1111" "New").1

def c5mRen : ProjectManifest :=
  { app := "takecopter", schemaVersion := 1, createdAt := "2024"
    sharedLibrary := default_library
    stories := [{ story := c5storyRen, folderName := "new-aaaaaaaa" }] }

def c5rootImp : Root := (import_project emptyRoot "T3" payloadA).1

def c5mImp : ProjectManifest :=
  { app := "takecopter", schemaVersion := CURRENT_SCHEMA_VERSION
    createdAt := "T3", sharedLibrary := default_library
    stories := [{ story := storyA, folderName := "old-aaaaaaaa" }] }

def c5rootImpS : Root := (import_story emptyRoot "T4" c5payload).1

def c5mImpS : ProjectManifest :=
  { app := "takecopter", schemaVersion := CURRENT_SCHEMA_VERSION
    createdAt := "T4", sharedLibrary := default_library
    stories := [{ story := c5payload.story, folderName := "new-aaaaaaaa" }] }

def c5m2 : ProjectManifest :=
  { app := "takecopter", schemaVersion := CURRENT_SCHEMA_VERSION
    createdAt := c5now, sharedLibrary := default_library
    stories := [{ story := c5payload.story, folderName := "old-aaaaaaaa" }] }

/-! ## Theorems -/

/-- Claim C7: for a path at which no workspace database file exists,
`read_workspace` returns `Ok` with the empty default workspace (empty
settings, empty tree, default library) rather than an error, and creates
nothing on disk (the file state stays `missing`). -/
theorem c7_read_workspace_missing_default :
    read_workspace .missing =
      (.missing, .ok { settings := [], tree := [], library := default_library }) :=
  rfl

/-- Claim C10: when the workspace row exists, `read_workspace` errors when
the stored `settings_json` or `tree_json` is not a valid JSON array, but a
NULL or malformed `library_json` never causes an error — the library is
silently replaced by the default. -/
theorem c10_read_workspace_row_parse_behavior :
    ∀ (row : DbRow),
      (row.settings_json = .bad →
        (read_workspace (.present (some row))).2 = .error wsParseSettingsMsg) ∧
      (∀ s, row.settings_json = .good s → row.tree_json = .bad →
        (read_workspace (.present (some row))).2 = .error wsParseTreeMsg) ∧
      (∀ s t, row.settings_json = .good s → row.tree_json = .good t →
        row.library_json = none →
        (read_workspace (.present (some row))).2 =
          .ok { settings := s, tree := t, library := default_library }) ∧
      (∀ s t, row.settings_json = .good s → row.tree_json = .good t →
        row.library_json = some .bad →
        (read_workspace (.present (some row))).2 =
          .ok { settings := s, tree := t, library := default_library }) ∧
      (∀ s t lib, row.settings_json = .good s → row.tree_json = .good t →
        row.library_json = some (.good lib) →
        (read_workspace (.present (some row))).2 =
          .ok { settings := s, tree := t, library := lib }) := by
  rintro ⟨sj, tj, lj⟩
  refine ⟨?_, ?_, ?_, ?_, ?_⟩
  · rintro rfl; rfl
  · rintro s rfl rfl; rfl
  · rintro s t rfl rfl rfl; rfl
  · rintro s t rfl rfl rfl; rfl
  · rintro s t lib rfl rfl rfl; rfl

/-- Witness for C10: the five branches evaluated on concrete rows. -/
theorem c10_witness :
    (read_workspace (.present (some rowBadSettings))).2 = .error wsParseSettingsMsg ∧
    (read_workspace (.present (some rowBadTree))).2 = .error wsParseTreeMsg ∧
    (read_workspace (.present (some rowLibNull))).2 =
      .ok { settings := [], tree := [], library := default_library } ∧
    (read_workspace (.present (some rowLibBad))).2 =
      .ok { settings := [.str "x"], tree := [.num 1], library := default_library } ∧
    (read_workspace (.present (some rowLibGood))).2 =
      .ok { settings := [], tree := [], library := libX } :=
  ⟨(c10_read_workspace_row_parse_behavior rowBadSettings).1 rfl,
   (c10_read_workspace_row_parse_behavior rowBadTree).2.1 [.null] rfl rfl,
   (c10_read_workspace_row_parse_behavior rowLibNull).2.2.1 [] [] rfl rfl rfl,
   (c10_read_workspace_row_parse_behavior rowLibBad).2.2.2.1 [.str "x"] [.num 1]
     rfl rfl rfl,
   (c10_read_workspace_row_parse_behavior rowLibGood).2.2.2.2 [] [] libX
     rfl rfl rfl⟩

/-- Claim C3: `import_project` rejects a payload whose `schemaVersion`
exceeds the current version (1) with the version-too-new error before any
write (the root state is returned untouched), and rejects a payload whose
`app` is not `"takecopter"` with the invalid-source error, likewise before
any write. -/
theorem c3_import_guards_precede_writes :
    ∀ (root : Root) (now : String) (payload : ExportedProjectData),
      (payload.app = "takecopter" →
        payload.schemaVersion > CURRENT_SCHEMA_VERSION →
        import_project root now payload = (root, .error importProjectVersionMsg)) ∧
      (payload.app ≠ "takecopter" →
        import_project root now payload = (root, .error importProjectSourceMsg)) := by
  intro root now payload
  constructor
  · intro h1 h2
    simp [import_project, h1, h2]
  · intro h1
    simp [import_project, h1]

/-- Witness for C3: a version-2 payload and a foreign-app payload are both
rejected with the root state unchanged. -/
theorem c3_witness :
    payloadVer2.app = "takecopter" ∧
    payloadVer2.schemaVersion > CURRENT_SCHEMA_VERSION ∧
    import_project emptyRoot "T" payloadVer2 =
      (emptyRoot, .error importProjectVersionMsg) ∧
    payloadBadApp.app ≠ "takecopter" ∧
    import_project emptyRoot "T" payloadBadApp =
      (emptyRoot, .error importProjectSourceMsg) :=
  ⟨rfl, by decide,
   (c3_import_guards_precede_writes emptyRoot "T" payloadVer2).1 rfl (by decide),
   by decide,
   (c3_import_guards_precede_writes emptyRoot "T" payloadBadApp).2 (by decide)⟩

/-- Claim C8: `open_project_root` fails with the root-does-not-exist error
for a path that does not exist, fails with the distinct `NotAProject`
error for an existing path without `project.json`, the two error strings
differ, and in both cases the active root is left unset/unchanged. -/
theorem c8_open_project_root_error_modes :
    ∀ (root_path now : String) (active : Option String) (r : Root),
      open_project_root root_path .absent now active =
        ((.absent, active), .error rootMissingMsg) ∧
      (r.manifestFile = none →
        open_project_root root_path (.present r) now active =
          ((.present r, active), .error notAProjectMsg)) ∧
      rootMissingMsg ≠ notAProjectMsg := by
  intro root_path now active r
  refine ⟨rfl, ?_, by decide⟩
  intro h
  simp [open_project_root, h]

/-- Witness for C8: both failure modes at concrete inputs. -/
theorem c8_witness :
    open_project_root "p" .absent "T" none =
      ((.absent, none), .error rootMissingMsg) ∧
    rootNoManifest.manifestFile = none ∧
    open_project_root "p" (.present rootNoManifest) "T" none =
      ((.present rootNoManifest, none), .error notAProjectMsg) ∧
    rootMissingMsg ≠ notAProjectMsg :=
  ⟨(c8_open_project_root_error_modes "p" "T" none rootNoManifest).1,
   rfl,
   (c8_open_project_root_error_modes "p" "T" none rootNoManifest).2.1 rfl,
   (c8_open_project_root_error_modes "p" "T" none rootNoManifest).2.2⟩

/-- Claim C2: when the story exists, the new title is non-blank, its
recomputed folder name differs from the current one, the current directory
exists, and the target directory already exists on disk, `rename_story`
returns the conflict error and performs no filesystem mutation and no
manifest write (the root state is returned unchanged). -/
theorem c2_rename_conflict_no_mutation :
    ∀ (root : Root) (now story_id title : String) (manifest : ProjectManifest)
      (entry : StoryManifestEntry),
      read_manifest root = .ok manifest →
      find_story_entry manifest story_id = some entry →
      trimString title ≠ "" →
      make_story_folder_name (trimString title) story_id ≠ entry.folderName →
      dirExists root entry.folderName = true →
      dirExists root (make_story_folder_name (trimString title) story_id) = true →
      rename_story root now story_id title = (root, .error conflictMsg) := by
  intro root now story_id title manifest entry hm hf ht hne hold hnext
  simp only [rename_story, hm, hf, if_neg ht]
  rw [if_pos (Ne.symm hne), if_pos hold, if_pos hnext]

/-- Witness for C2: renaming `"Other"` (folder `other-aaaaaaaa`, which
exists on disk) to `"New"` collides with the existing `new-aaaaaaaa`
folder of the other story and fails with `Conflict`, leaving the root
untouched. -/
theorem c2_witness :
    trimString "New" ≠ "" ∧
    dirExists rootC2 "other-aaaaaaaa" = true ∧
    dirExists rootC2 (make_story_folder_name (trimString "New") "aaaaaaaa-3333") = true ∧
    rename_story rootC2 "T" "aaaaaaaa-3333" "New" = (rootC2, .error conflictMsg) :=
  ⟨by decide, rfl, by decide,
   c2_rename_conflict_no_mutation rootC2 "T" "aaaaaaaa-3333" "New" manifestC2
     { story := { id := "aaaaaaaa-3333", title := "Other", description := ""
                  updatedAt := "2024-01-03T00:00:00Z", coverColor := "c" }
       folderName := "other-aaaaaaaa" }
     rfl rfl (by decide) (by decide) rfl (by decide)⟩

/-- Claim C9 (implicit): when the story exists, the title is non-blank and
its recomputed folder name differs, but the story's current folder does
not exist on disk, `rename_story` performs no directory rename and no
conflict check: it updates the manifest entry's folder name and title and
succeeds, leaving the directories untouched — even when a directory with
the new folder name already exists. -/
theorem c9_rename_missing_dir_skips_conflict :
    ∀ (root : Root) (now story_id title : String) (manifest : ProjectManifest)
      (entry : StoryManifestEntry),
      read_manifest root = .ok manifest →
      find_story_entry manifest story_id = some entry →
      trimString title ≠ "" →
      make_story_folder_name (trimString title) story_id ≠ entry.folderName →
      dirExists root entry.folderName = false →
      rename_story root now story_id title =
        (write_manifest root { manifest with stories :=
            (renameUpdatedStories manifest.stories story_id (trimString title) now
              (make_story_folder_name (trimString title) story_id) true) },
         .ok { entry.story with title := trimString title, updatedAt := now }) ∧
      (rename_story root now story_id title).1.dirs = root.dirs := by
  intro root now story_id title manifest entry hm hf ht hne hold
  have h : rename_story root now story_id title =
      (write_manifest root { manifest with stories :=
          (renameUpdatedStories manifest.stories story_id (trimString title) now
            (make_story_folder_name (trimString title) story_id) true) },
       .ok { entry.story with title := trimString title, updatedAt := now }) := by
    simp only [rename_story, hm, hf, if_neg ht]
    rw [if_pos (Ne.symm hne), if_neg (by simp [hold])]
  exact ⟨h, by rw [h]; rfl⟩

/-- Witness for C9: the story's folder `old-aaaaaaaa` is missing on disk
while a directory named `new-aaaaaaaa` (the rename target) already exists;
the rename still succeeds and no directory changes. -/
theorem c9_witness :
    dirExists rootC9 "old-aaaaaaaa" = false ∧
    dirExists rootC9 "new-aaaaaaaa" = true ∧
    (rename_story rootC9 "T" "aaaaaaaa-1111" "New").2 =
      .ok { id := "aaaaaaaa-1111", title := "New", description := ""
            updatedAt := "T", coverColor := "c" } ∧
    (rename_story rootC9 "T" "aaaaaaaa-1111" "New").1.dirs = rootC9.dirs := by
  have h := c9_rename_missing_dir_skips_conflict rootC9 "T" "aaaaaaaa-1111" "New"
    manifestC9
    { story := { id := "aaaaaaaa-1111", title := "Old", description := ""
                 updatedAt := "2024-01-01T00:00:00Z", coverColor := "c" }
      folderName := "old-aaaaaaaa" }
    rfl rfl (by decide) (by decide) rfl
  exact ⟨rfl, rfl, by rw [h.1]; rfl, h.2⟩

/-- Frame fact: writing the manifest does not touch any story database. -/
theorem getDb_write_manifest (r : Root) (m : ProjectManifest) (f : String) :
    getDb (write_manifest r m) f = getDb r f := rfl

/-- Writing a database under a folder makes exactly that content readable
there. -/
theorem getDb_setDb_self (r : Root) (f : String) (v : DbFile) :
    getDb (setDb r f v) f = v := by
  simp [getDb, setDb]

/-- Writing a database under one folder leaves every other folder's
database unchanged. -/
theorem getDb_setDb_other {f' f : String} (r : Root) (v : DbFile) (h : f' ≠ f) :
    getDb (setDb r f v) f' = getDb r f' := by
  simp [getDb, setDb, h]

/-- Reading back a row written by `write_workspace` yields exactly the
written workspace. -/
theorem read_write_roundtrip (w : Workspace) :
    (read_workspace (.present (some (serializeRow w)))).2 = .ok w := rfl

/-- Claim C4: for a story present in the manifest whose workspace reads
back as `w`, `update_settings` succeeds and leaves the stored `tree` and
`library` equal to `w`'s (only `settings` is replaced), and `update_tree`
succeeds and leaves `settings` and `library` equal to `w`'s (only `tree`
is replaced). -/
theorem c4_update_preserves_other_half :
    ∀ (root : Root) (now story_id : String) (s t : List JsonVal)
      (manifest : ProjectManifest) (entry : StoryManifestEntry) (w : Workspace),
      read_manifest root = .ok manifest →
      find_story_entry manifest story_id = some entry →
      (read_workspace (getDb root entry.folderName)).2 = .ok w →
      ((update_settings root now story_id s).2 = .ok () ∧
        (read_workspace
          (getDb (update_settings root now story_id s).1 entry.folderName)).2 =
          .ok { settings := s, tree := w.tree, library := w.library }) ∧
      ((update_tree root now story_id t).2 = .ok () ∧
        (read_workspace
          (getDb (update_tree root now story_id t).1 entry.folderName)).2 =
          .ok { settings := w.settings, tree := t, library := w.library }) := by
  intro root now story_id s t manifest entry w hm hf hw
  constructor
  · constructor
    · simp only [update_settings, hm, hf, hw]
    · simp only [update_settings, hm, hf, hw, write_workspace]
      rw [getDb_write_manifest, getDb_setDb_self, read_write_roundtrip]
  · constructor
    · simp only [update_tree, hm, hf, hw]
    · simp only [update_tree, hm, hf, hw, write_workspace]
      rw [getDb_write_manifest, getDb_setDb_self, read_write_roundtrip]

/-- Witness for C4: updating the settings of `storyA` keeps `wsA`'s tree
and library; updating the tree keeps `wsA`'s settings and library. -/
theorem c4_witness :
    (read_workspace (getDb rootA "old-aaaaaaaa")).2 = .ok wsA ∧
    (read_workspace
      (getDb (update_settings rootA "T" "aaaaaaaa-1111" [.bool true]).1
        "old-aaaaaaaa")).2 =
      .ok { settings := [.bool true], tree := wsA.tree, library := wsA.library } ∧
    (read_workspace
      (getDb (update_tree rootA "T" "aaaaaaaa-1111" [.str "n"]).1
        "old-aaaaaaaa")).2 =
      .ok { settings := wsA.settings, tree := [.str "n"], library := wsA.library } := by
  have h := c4_update_preserves_other_half rootA "T" "aaaaaaaa-1111"
    [.bool true] [.str "n"] manifestA
    { story := storyA, folderName := "old-aaaaaaaa" } wsA rfl rfl rfl
  exact ⟨rfl, h.1.2, h.2.2⟩

/-- Moving a database file makes the source folder's content readable at
the destination. -/
theorem getDb_moveDb_dst (r : Root) (src dst : String) :
    getDb (moveDb r src dst) dst = getDb r src := by
  simp [moveDb, getDb_setDb_self]

/-- After moving a database file away, the source folder has no database. -/
theorem getDb_moveDb_src {src dst : String} (r : Root) (h : src ≠ dst) :
    getDb (moveDb r src dst) src = .missing := by
  simp only [moveDb]
  rw [getDb_setDb_other _ _ h, getDb_setDb_self]

/-- Moving a database file touches no third folder. -/
theorem getDb_moveDb_other {f src dst : String} (r : Root)
    (h1 : f ≠ src) (h2 : f ≠ dst) :
    getDb (moveDb r src dst) f = getDb r f := by
  simp only [moveDb]
  rw [getDb_setDb_other _ _ h2, getDb_setDb_other _ _ h1]

/-- Footprint disjointness is symmetric. -/
theorem entriesDisjoint_symm : Symmetric entriesDisjoint := by
  rintro a b ⟨h1, h2, h3, h4⟩
  exact ⟨h1.symm, h2.symm, h4.symm, h3.symm⟩

/-- The workspace-collection loop only ever touches the id- and
folder-name directories of the entries it processes. -/
theorem loadLoop_frame :
    ∀ (entries : List StoryManifestEntry) (root : Root)
      (acc : List (String × Workspace)) (root' : Root)
      (res : Except String (List (String × Workspace))),
      loadWorkspacesLoop root acc entries = (root', res) →
      ∀ f, (∀ e ∈ entries, f ≠ e.story.id ∧ f ≠ e.folderName) →
      getDb root' f = getDb root f := by
  intro entries
  induction entries with
  | nil =>
    intro root acc root' res h f _
    simp only [loadWorkspacesLoop] at h
    cases h
    rfl
  | cons e rest ih =>
    intro root acc root' res h f hf
    simp only [loadWorkspacesLoop] at h
    by_cases hc : (!dbExists root e.folderName && dbExists root e.story.id) = true
    · rw [if_pos hc] at h
      have hstep : getDb (moveDb root e.story.id e.folderName) f = getDb root f :=
        getDb_moveDb_other root (hf e (List.mem_cons_self e rest)).1
          (hf e (List.mem_cons_self e rest)).2
      rcases hread : (read_workspace
          (getDb (moveDb root e.story.id e.folderName) e.folderName)).2 with msg | w
      · rw [hread] at h
        cases h
        exact hstep
      · rw [hread] at h
        rw [ih _ _ _ _ h f (fun e' he' => hf e' (List.mem_cons_of_mem e he'))]
        exact hstep
    · rw [if_neg hc] at h
      rcases hread : (read_workspace (getDb root e.folderName)).2 with msg | w
      · rw [hread] at h
        cases h
        rfl
      · rw [hread] at h
        exact ih _ _ _ _ h f (fun e' he' => hf e' (List.mem_cons_of_mem e he'))

/-- If the loop completes and some entry's database was only present under
its legacy per-id directory at the start, then (given disjoint entry
footprints) the final state has that database under the entry's folder
name and the legacy location empty. -/
theorem loadLoop_migrates :
    ∀ (entries : List StoryManifestEntry) (root : Root)
      (acc : List (String × Workspace)) (root' : Root)
      (res : List (String × Workspace)) (e : StoryManifestEntry)
      (dbc : Option DbRow),
      loadWorkspacesLoop root acc entries = (root', .ok res) →
      List.Pairwise entriesDisjoint entries →
      e ∈ entries →
      getDb root e.folderName = .missing →
      getDb root e.story.id = .present dbc →
      getDb root' e.folderName = .present dbc ∧ getDb root' e.story.id = .missing := by
  intro entries
  induction entries with
  | nil =>
    intro root acc root' res e dbc h hpw hmem
    exact absurd hmem (List.not_mem_nil e)
  | cons e0 rest ih =>
    intro root acc root' res e dbc h hpw hmem hmiss hpres
    rw [List.pairwise_cons] at hpw
    rcases List.mem_cons.mp hmem with rfl | hmemt
    · -- e is the head entry: the migration fires here
      have hne : e.folderName ≠ e.story.id := by
        intro hEq
        rw [hEq, hpres] at hmiss
        cases hmiss
      simp only [loadWorkspacesLoop] at h
      rw [if_pos (by simp [dbExists, hmiss, hpres])] at h
      have hdst : getDb (moveDb root e.story.id e.folderName) e.folderName =
          .present dbc := by
        rw [getDb_moveDb_dst, hpres]
      have hsrc : getDb (moveDb root e.story.id e.folderName) e.story.id =
          .missing := getDb_moveDb_src root (Ne.symm hne)
      rcases hread : (read_workspace
          (getDb (moveDb root e.story.id e.folderName) e.folderName)).2 with msg | w
      · rw [hread] at h
        cases h
      · rw [hread] at h
        have hfr1 := loadLoop_frame rest _ _ _ _ h e.folderName
          (fun e' he' => ⟨(hpw.1 e' he').2.2.2, (hpw.1 e' he').2.1⟩)
        have hfr2 := loadLoop_frame rest _ _ _ _ h e.story.id
          (fun e' he' => ⟨(hpw.1 e' he').1, (hpw.1 e' he').2.2.1⟩)
        rw [hfr1, hfr2, hdst, hsrc]
        exact ⟨rfl, rfl⟩
    · -- e sits in the tail: the head's step does not touch e's folders
      have hd := hpw.1 e hmemt
      simp only [loadWorkspacesLoop] at h
      by_cases hc : (!dbExists root e0.folderName && dbExists root e0.story.id) = true
      · rw [if_pos hc] at h
        have hkeep1 : getDb (moveDb root e0.story.id e0.folderName) e.folderName =
            getDb root e.folderName :=
          getDb_moveDb_other root (Ne.symm hd.2.2.1) (Ne.symm hd.2.1)
        have hkeep2 : getDb (moveDb root e0.story.id e0.folderName) e.story.id =
            getDb root e.story.id :=
          getDb_moveDb_other root (Ne.symm hd.1) (Ne.symm hd.2.2.2)
        rcases hread : (read_workspace
            (getDb (moveDb root e0.story.id e0.folderName) e0.folderName)).2 with msg | w
        · rw [hread] at h
          cases h
        · rw [hread] at h
          exact ih _ _ _ _ e dbc h hpw.2 hmemt (hkeep1.trans hmiss) (hkeep2.trans hpres)
      · rw [if_neg hc] at h
        rcases hread : (read_workspace (getDb root e0.folderName)).2 with msg | w
        · rw [hread] at h
          cases h
        · rw [hread] at h
          exact ih _ _ _ _ e dbc h hpw.2 hmemt hmiss hpres

/-- Claim C6: a manifest file that parses only in the legacy schema with
`app = "takecopter"` is read successfully into a current-schema manifest
whose entries carry folder names synthesized as `slugify(title)-id[:8]`
and whose shared library is the default; and on the next load, a story
whose database still lives under the legacy per-id folder has that
database renamed into the slug-based folder (the legacy location is left
without the file). -/
theorem c6_legacy_manifest_migration :
    (∀ (l : LegacyProjectManifest) (dirs : String → Option DbFile),
      l.app = "takecopter" →
      read_manifest { manifestFile := some (.legacy l), dirs := dirs } =
        .ok (migrateLegacy l) ∧
      (migrateLegacy l).sharedLibrary = default_library ∧
      (migrateLegacy l).stories.map (·.story) = l.stories ∧
      ∀ e ∈ (migrateLegacy l).stories,
        e.folderName = make_story_folder_name e.story.title e.story.id) ∧
    (∀ (root root' : Root) (m : ProjectManifest) (e : StoryManifestEntry)
      (dbc : Option DbRow) (data : ProjectData),
      read_manifest root = .ok m →
      List.Pairwise entriesDisjoint m.stories →
      e ∈ m.stories →
      getDb root e.folderName = .missing →
      getDb root e.story.id = .present dbc →
      load_project_data root = (root', .ok data) →
      getDb root' e.folderName = .present dbc ∧ getDb root' e.story.id = .missing) := by
  constructor
  · intro l dirs h
    refine ⟨?_, rfl, ?_, ?_⟩
    · simp [read_manifest, migrateLegacy, h]
    · simp only [migrateLegacy, List.map_map]
      exact (List.map_congr_left (fun a _ => rfl)).trans (List.map_id _)
    · intro e he
      rcases List.mem_map.mp he with ⟨s, _, rfl⟩
      rfl
  · intro root root' m e dbc data hm hpw hmem hmiss hpres hload
    simp only [load_project_data, hm] at hload
    rcases hloop : loadWorkspacesLoop root [] (sortStories m.stories) with ⟨root1, res1⟩
    rw [hloop] at hload
    cases res1 with
    | error msg => simp at hload
    | ok ws =>
      have hroot : root' = root1 := by
        have := congrArg Prod.fst hload
        exact this.symm
      subst hroot
      exact loadLoop_migrates (sortStories m.stories) root [] root' ws e dbc hloop
        (((List.mergeSort_perm m.stories entryLe).pairwise_iff
          (fun {x y} h => entriesDisjoint_symm h)).mpr hpw)
        ((List.mergeSort_perm m.stories entryLe).mem_iff.mpr hmem)
        hmiss hpres

/-- Witness for C6: reading the legacy one-story manifest `legacyA`, and
loading `rootLegacyDb`, whose database sits under the per-id folder,
moves it into `old-aaaaaaaa`. -/
theorem c6_witness :
    (read_manifest { manifestFile := some (.legacy legacyA), dirs := fun _ => none } =
      .ok (migrateLegacy legacyA) ∧
      (migrateLegacy legacyA).stories.map (·.folderName) = ["old-aaaaaaaa"]) ∧
    (getDb rootLegacyDb "old-aaaaaaaa" = .missing ∧
      getDb rootLegacyDb "aaaaaaaa-1111" = .present (some (serializeRow wsA)) ∧
      load_project_data rootLegacyDb = (c6root', .ok c6data) ∧
      getDb c6root' "old-aaaaaaaa" = .present (some (serializeRow wsA)) ∧
      getDb c6root' "aaaaaaaa-1111" = .missing) := by
  have hload : load_project_data rootLegacyDb = (c6root', .ok c6data) := by
    simp [load_project_data, read_manifest, rootLegacyDb, manifestA, sortStories,
      List.mergeSort_singleton, loadWorkspacesLoop, dbExists, getDb, moveDb,
      setDb, read_workspace, serializeRow, insertAssoc, c6root', c6data, wsA, storyA]
  have h2 := c6_legacy_manifest_migration.2 rootLegacyDb c6root' manifestA
    { story := storyA, folderName := "old-aaaaaaaa" } (some (serializeRow wsA))
    c6data rfl (by simp [manifestA, entriesDisjoint, storyA]) (by simp [manifestA])
    rfl rfl hload
  exact ⟨⟨(c6_legacy_manifest_migration.1 legacyA (fun _ => none) rfl).1, by rfl⟩,
    ⟨rfl, rfl, hload, h2.1, h2.2⟩⟩

/-- Counterexample for C5 at explicit reachable states: after
`create_story` of a story titled `"Old"` (id `aaaaaaaa-1111`) and
`import_story` of the same id with title `"New"`, the manifest entry keeps
folder name `old-aaaaaaaa` although the projection of the new title is
`new-aaaaaaaa`; and creating two stories titled `"A"` whose ids share the
first 8 characters yields two entries with the same folder name, so
folder-name uniqueness does not hold either. -/
theorem c5_counterexample :
    (read_manifest c5root2).toOption.map
        (fun m => m.stories.map (fun e => (e.folderName, e.story.title))) =
      some [("old-aaaaaaaa", "New")] ∧
    make_story_folder_name "New" "aaaaaaaa-1111" = "new-aaaaaaaa" ∧
    ("old-aaaaaaaa" : String) ≠ "new-aaaaaaaa" ∧
    (read_manifest c5dup).toOption.map (fun m => m.stories.map (·.folderName)) =
      some ["a-11111111", "a-11111111"] := by
  refine ⟨?_, ?_, ?_, ?_⟩
  · rfl
  · rfl
  · decide
  · rfl

/-- A successfully read manifest always has `app = "takecopter"`. -/
theorem read_manifest_ok_app :
    ∀ (root : Root) (m : ProjectManifest),
      read_manifest root = .ok m → m.app = "takecopter" := by
  intro root m h
  unfold read_manifest at h
  split at h
  · cases h
  · cases h
  · split at h
    · cases h
      assumption
    · cases h
  · dsimp only at h
    split at h
    · cases h
      assumption
    · cases h

/-- `updateFirst` rewrites exactly the entry that `find?` locates: the
list splits as a prefix of non-matching elements, the match, and a tail. -/
theorem updateFirst_eq_of_find :
    ∀ {α : Type} (l : List α) (p : α → Bool) (f : α → α) (a : α),
      l.find? p = some a →
      ∃ l1 l2, l = l1 ++ a :: l2 ∧ (∀ x ∈ l1, p x = false) ∧
        updateFirst p f l = l1 ++ f a :: l2 := by
  intro α l p f
  induction l with
  | nil => intro a h; cases h
  | cons x xs ih =>
    intro a h
    by_cases hp : p x = true
    · rw [List.find?_cons_of_pos _ hp] at h
      cases h
      exact ⟨[], xs, rfl, by simp, by simp [updateFirst, hp]⟩
    · rw [List.find?_cons_of_neg _ (by simpa using hp)] at h
      obtain ⟨l1, l2, hl, hfalse, hupd⟩ := ih a h
      refine ⟨x :: l1, l2, by rw [hl]; rfl, ?_, ?_⟩
      · intro y hy
        rcases List.mem_cons.mp hy with rfl | hy
        · simpa using hp
        · exact hfalse y hy
      · simp [updateFirst, hp, hupd]

/-- `find?` over a prefix of non-matching elements followed by a match
returns the match. -/
theorem find?_append_cons_of_false :
    ∀ {α : Type} (p : α → Bool) (l1 : List α) (x : α) (l2 : List α),
      (∀ y ∈ l1, p y = false) → p x = true →
      (l1 ++ x :: l2).find? p = some x := by
  intro α p l1
  induction l1 with
  | nil => intro x l2 _ hx; simp [List.find?_cons_of_pos _ hx]
  | cons y ys ih =>
    intro x l2 hfalse hx
    rw [List.cons_append, List.find?_cons_of_neg _ (by simp [hfalse y (List.mem_cons_self y ys)])]
    exact ih x l2 (fun z hz => hfalse z (List.mem_cons_of_mem y hz)) hx

/-- Folding workspace writes over a list of entries never touches
`project.json`. -/
theorem foldl_write_workspace_manifestFile :
    ∀ (entries : List StoryManifestEntry) (r0 : Root)
      (wsOf : StoryManifestEntry → Workspace),
      (entries.foldl (fun r e => write_workspace r e.folderName (wsOf e)) r0).manifestFile =
        r0.manifestFile := by
  intro entries
  induction entries with
  | nil => intro r0 wsOf; rfl
  | cons e rest ih => intro r0 wsOf; exact ih _ wsOf

/-- Reading back a manifest just written with the expected `app` constant
succeeds with that manifest. -/
theorem read_manifest_write_manifest (r : Root) (M : ProjectManifest)
    (h : M.app = "takecopter") : read_manifest (write_manifest r M) = .ok M := by
  simp [read_manifest, write_manifest, h]

/-- `read_manifest` depends only on the manifest file contents. -/
theorem read_manifest_congr (r r' : Root)
    (h : r.manifestFile = r'.manifestFile) :
    read_manifest r = read_manifest r' := by
  unfold read_manifest
  rw [h]

/-- Writing a workspace never touches `project.json`. -/
theorem write_workspace_manifestFile (r : Root) (f : String) (w : Workspace) :
    (write_workspace r f w).manifestFile = r.manifestFile := rfl

/-- The manifest rewrite of `rename_story` preserves the folder-name
projection: the renamed entry receives the recomputed folder name (or kept
it equal to the projection in the unchanged branch) and all other entries
are untouched. -/
theorem renameUpdatedStories_inv :
    ∀ (stories : List StoryManifestEntry) (story_id clean now next : String)
      (setFolder : Bool) (entry : StoryManifestEntry),
      stories.find? (fun e => e.story.id == story_id) = some entry →
      (∀ e ∈ stories, entryFolderInv e) →
      next = make_story_folder_name clean story_id →
      (setFolder = false → entry.folderName = next) →
      ∀ e ∈ renameUpdatedStories stories story_id clean now next setFolder,
        entryFolderInv e := by
  intro stories story_id clean now next setFolder entry hfind hinv hnext hkeep
  have hid : entry.story.id = story_id := by
    have := List.find?_some hfind
    simpa using this
  obtain ⟨l1, l2, hl, _, hupd⟩ :=
    updateFirst_eq_of_find stories (fun e => e.story.id == story_id)
      (fun e =>
        { folderName := if setFolder then next else e.folderName
          story := { e.story with title := clean, updatedAt := now } })
      entry hfind
  intro e he
  rw [renameUpdatedStories, hupd] at he
  rcases List.mem_append.mp he with he | he
  · exact hinv e (hl ▸ List.mem_append_left _ he)
  · rcases List.mem_cons.mp he with rfl | he
    · show (if setFolder then next else entry.folderName) = _
      cases setFolder with
      | true => simp [hnext, hid]
      | false => simp [hkeep rfl, hnext, hid]
    · exact hinv e (hl ▸ List.mem_append_right _ (List.mem_cons_of_mem _ he))

/-- After replacing the entry `find?` located, `find?` returns the
replacement (the replacement still matches the id). -/
theorem updateFirst_find_replaced :
    ∀ (stories : List StoryManifestEntry) (pid : String)
      (newEntry e0 : StoryManifestEntry),
      stories.find? (fun e => e.story.id == pid) = some e0 →
      (newEntry.story.id == pid) = true →
      (updateFirst (fun e => e.story.id == pid) (fun _ => newEntry)
          stories).find? (fun e => e.story.id == pid) = some newEntry := by
  intro stories pid newEntry e0 hfind hnew
  obtain ⟨l1, l2, _, hfalse, hupd⟩ :=
    updateFirst_eq_of_find stories (fun e => e.story.id == pid)
      (fun _ => newEntry) e0 hfind
  rw [hupd]
  exact find?_append_cons_of_false _ l1 _ l2 hfalse hnew

/-- Amended C5: every manifest entry written by `create_story`,
`rename_story` and `import_project` satisfies
`folderName = slugify(title) + "-" + id[:8]` (given the prior entries did),
and `import_story` appends a projection-satisfying entry for a fresh id —
but for an existing id it keeps the stored folder name unchanged even when
the imported title differs, and no operation checks manifest-level
folder-name uniqueness. -/
theorem c5_amended_folder_projection :
    (∀ (root root' : Root) (now id : String) (millis : Int)
      (input : CreateStoryInput) (story : Story) (m m' : ProjectManifest),
      read_manifest (ensure_root_layout root now) = .ok m →
      (∀ e ∈ m.stories, entryFolderInv e) →
      create_story root now id millis input = (root', .ok story) →
      read_manifest root' = .ok m' →
      ∀ e ∈ m'.stories, entryFolderInv e) ∧
    (∀ (root root' : Root) (now story_id title : String) (story : Story)
      (m m' : ProjectManifest),
      read_manifest root = .ok m →
      (∀ e ∈ m.stories, entryFolderInv e) →
      rename_story root now story_id title = (root', .ok story) →
      read_manifest root' = .ok m' →
      ∀ e ∈ m'.stories, entryFolderInv e) ∧
    (∀ (root root' : Root) (now : String) (payload : ExportedProjectData)
      (m' : ProjectManifest),
      import_project root now payload = (root', .ok ()) →
      read_manifest root' = .ok m' →
      ∀ e ∈ m'.stories, entryFolderInv e) ∧
    (∀ (root root' : Root) (now : String) (payload : ExportedStoryData)
      (m m' : ProjectManifest),
      read_manifest (ensure_root_layout root now) = .ok m →
      find_story_entry m payload.story.id = none →
      (∀ e ∈ m.stories, entryFolderInv e) →
      import_story root now payload = (root', .ok ()) →
      read_manifest root' = .ok m' →
      ∀ e ∈ m'.stories, entryFolderInv e) ∧
    (∀ (root root' : Root) (now : String) (payload : ExportedStoryData)
      (m m' : ProjectManifest) (e0 e1 : StoryManifestEntry),
      read_manifest (ensure_root_layout root now) = .ok m →
      find_story_entry m payload.story.id = some e0 →
      import_story root now payload = (root', .ok ()) →
      read_manifest root' = .ok m' →
      find_story_entry m' payload.story.id = some e1 →
      e1.folderName = e0.folderName) := by
  refine ⟨?_, ?_, ?_, ?_, ?_⟩
  · -- create_story appends an entry satisfying the projection
    intro root root' now id millis input story m m' hm hinv hcreate hm'
    have happ := read_manifest_ok_app _ _ hm
    simp only [create_story, hm] at hcreate
    rw [Prod.mk.injEq] at hcreate
    rw [← hcreate.1] at hm'
    have hmEq := hm'.symm.trans
      (read_manifest_write_manifest _ _ happ)
    injection hmEq with hmEq
    subst hmEq
    intro e he
    rcases List.mem_append.mp he with he | he
    · exact hinv e he
    · rcases List.mem_singleton.mp he with rfl
      rfl
  · -- rename_story rewrites the renamed entry with the projection
    intro root root' now story_id title story m m' hm hinv hrename hm'
    have happ := read_manifest_ok_app _ _ hm
    simp only [rename_story] at hrename
    split at hrename
    · simp at hrename
    · rw [hm] at hrename
      dsimp only at hrename
      rcases hfind : find_story_entry m story_id with _ | entry
      · rw [hfind] at hrename
        simp at hrename
      · rw [hfind] at hrename
        dsimp only at hrename
        split at hrename
        · split at hrename
          · split at hrename
            · simp at hrename
            · rw [Prod.mk.injEq] at hrename
              rw [← hrename.1] at hm'
              have hmEq := hm'.symm.trans
                (read_manifest_write_manifest _ _ happ)
              injection hmEq with hmEq
              subst hmEq
              exact renameUpdatedStories_inv m.stories story_id (trimString title)
                now _ true entry hfind hinv rfl (by intro h; cases h)
          · rw [Prod.mk.injEq] at hrename
            rw [← hrename.1] at hm'
            have hmEq := hm'.symm.trans
              (read_manifest_write_manifest _ _ happ)
            injection hmEq with hmEq
            subst hmEq
            exact renameUpdatedStories_inv m.stories story_id (trimString title)
              now _ true entry hfind hinv rfl (by intro h; cases h)
        · rename_i hsame
          have hold : entry.folderName =
              make_story_folder_name (trimString title) story_id := by
            by_contra hcon
            exact hsame hcon
          rw [Prod.mk.injEq] at hrename
          rw [← hrename.1] at hm'
          have hmEq := hm'.symm.trans
            (read_manifest_write_manifest _ _ happ)
          injection hmEq with hmEq
          subst hmEq
          exact renameUpdatedStories_inv m.stories story_id (trimString title)
            now _ false entry hfind hinv rfl (fun _ => hold)
  · -- import_project recomputes every folder name
    intro root root' now payload m' himp hm'
    simp only [import_project] at himp
    split at himp
    · simp at himp
    · split at himp
      · simp at himp
      · rcases hm0 : read_manifest (ensure_root_layout root now) with msg | mm
        · rw [hm0] at himp
          simp at himp
        · have happ := read_manifest_ok_app _ _ hm0
          rw [hm0] at himp
          dsimp only at himp
          rw [Prod.mk.injEq] at himp
          rw [read_manifest_congr root'
            (write_manifest (ensure_root_layout root now)
              { mm with
                sharedLibrary := payload.data.sharedLibrary
                stories := (payload.data.stories.map (fun story =>
                  { story := story
                    folderName := make_story_folder_name story.title story.id })) })
            (by rw [← himp.1, foldl_write_workspace_manifestFile])] at hm'
          have hmEq := hm'.symm.trans
            (read_manifest_write_manifest _ _ happ)
          injection hmEq with hmEq
          subst hmEq
          intro e he
          rcases List.mem_map.mp he with ⟨s, _, rfl⟩
          rfl
  · -- import_story with a fresh id appends a projection entry
    intro root root' now payload m m' hm hnone hinv himp hm'
    have happ := read_manifest_ok_app _ _ hm
    simp only [import_story] at himp
    split at himp
    · simp at himp
    · split at himp
      · simp at himp
      · rw [hm] at himp
        dsimp only at himp
        rw [hnone] at himp
        dsimp only at himp
        rw [Prod.mk.injEq] at himp
        rw [read_manifest_congr root'
          (write_manifest (ensure_root_layout root now)
            { m with stories := (m.stories ++
                [{ story := payload.story
                   folderName := make_story_folder_name payload.story.title
                     payload.story.id }]) })
          (by rw [← himp.1, write_workspace_manifestFile])] at hm'
        have hmEq := hm'.symm.trans
          (read_manifest_write_manifest _ _ happ)
        injection hmEq with hmEq
        subst hmEq
        intro e he
        rcases List.mem_append.mp he with he | he
        · exact hinv e he
        · rcases List.mem_singleton.mp he with rfl
          rfl
  · -- import_story with an existing id keeps the stored folder name
    intro root root' now payload m m' e0 e1 hm hsome himp hm' hfind'
    have happ := read_manifest_ok_app _ _ hm
    simp only [import_story] at himp
    split at himp
    · simp at himp
    · split at himp
      · simp at himp
      · rw [hm] at himp
        dsimp only at himp
        rw [hsome] at himp
        dsimp only at himp
        rw [Prod.mk.injEq] at himp
        rw [read_manifest_congr root'
          (write_manifest (ensure_root_layout root now)
            { m with stories := (updateFirst
                (fun e => e.story.id == payload.story.id)
                (fun _ => { story := payload.story, folderName := e0.folderName })
                m.stories) })
          (by rw [← himp.1, write_workspace_manifestFile])] at hm'
        have hmEq := hm'.symm.trans
          (read_manifest_write_manifest _ _ happ)
        injection hmEq with hmEq
        subst hmEq
        simp only [find_story_entry] at hfind'
        rw [updateFirst_find_replaced m.stories payload.story.id
          { story := payload.story, folderName := e0.folderName } e0 hsome
          (by simp)] at hfind'
        injection hfind' with hfind'
        rw [← hfind']

/-- Witness for the amended C5: each conjunct applied at a concrete state:
creating `"Old"`, renaming to `"New"` with the directory missing,
importing `payloadA`, importing a fresh story, and importing over an
existing id (which keeps `old-aaaaaaaa`). -/
theorem c5_witness :
    entryFolderInv { story := c5story1, folderName := "old-aaaaaaaa" } ∧
    entryFolderInv { story := c5storyRen, folderName := "new-aaaaaaaa" } ∧
    entryFolderInv { story := storyA, folderName := "old-aaaaaaaa" } ∧
    entryFolderInv { story := c5payload.story, folderName := "new-aaaaaaaa" } ∧
    ({ story := c5payload.story, folderName := "old-aaaaaaaa" } :
        StoryManifestEntry).folderName =
      ({ story := c5story1, folderName := "old-aaaaaaaa" } :
        StoryManifestEntry).folderName := by
  refine ⟨?_, ?_, ?_, ?_, ?_⟩
  · exact c5_amended_folder_projection.1 emptyRoot c5root1 c5now "aaaaaaaa-1111" 0
      { title := "Old", description := "" } c5story1 (emptyManifest c5now) c5m1
      rfl (by intro e he; simp [emptyManifest] at he) rfl rfl
      { story := c5story1, folderName := "old-aaaaaaaa" } (by simp [c5m1])
  · exact c5_amended_folder_projection.2.1 rootC9 c5rootRen "T2" "aaaaaaaa-1111"
      "New" c5storyRen manifestC9 c5mRen rfl
      (by intro e he; simp [manifestC9] at he; subst he; rfl) rfl rfl
      { story := c5storyRen, folderName := "new-aaaaaaaa" } (by simp [c5mRen])
  · exact c5_amended_folder_projection.2.2.1 emptyRoot c5rootImp "T3" payloadA
      c5mImp rfl rfl
      { story := storyA, folderName := "old-aaaaaaaa" } (by simp [c5mImp])
  · exact c5_amended_folder_projection.2.2.2.1 emptyRoot c5rootImpS "T4" c5payload
      (emptyManifest "T4") c5mImpS rfl rfl
      (by intro e he; simp [emptyManifest] at he) rfl rfl
      { story := c5payload.story, folderName := "new-aaaaaaaa" } (by simp [c5mImpS])
  · exact c5_amended_folder_projection.2.2.2.2 c5root1 c5root2
      "2024-01-02T00:00:00Z" c5payload c5m1 c5m2
      { story := c5story1, folderName := "old-aaaaaaaa" }
      { story := c5payload.story, folderName := "old-aaaaaaaa" }
      rfl rfl rfl rfl rfl

/-- The lexicographic comparator is total. -/
theorem charListLe_total :
    ∀ (as bs : List Char), (charListLe as bs || charListLe bs as) = true := by
  intro as
  induction as with
  | nil => intro bs; simp [charListLe]
  | cons a as ih =>
    intro bs
    cases bs with
    | nil => simp [charListLe]
    | cons b bs =>
      simp only [charListLe]
      by_cases h1 : a.toNat < b.toNat
      · simp [h1]
      · by_cases h2 : b.toNat < a.toNat
        · simp [h1, h2]
        · simp [h1, h2, ih bs]

/-- The lexicographic comparator is transitive. -/
theorem charListLe_trans :
    ∀ (as bs cs : List Char), charListLe as bs = true → charListLe bs cs = true →
      charListLe as cs = true := by
  intro as
  induction as with
  | nil => intro bs cs _ _; simp [charListLe]
  | cons a as ih =>
    intro bs cs h1 h2
    cases bs with
    | nil => simp [charListLe] at h1
    | cons b bs =>
      cases cs with
      | nil => simp [charListLe] at h2
      | cons c cs =>
        simp only [charListLe] at h1 h2 ⊢
        by_cases hab : a.toNat < b.toNat
        · by_cases hbc : b.toNat < c.toNat
          · simp [show a.toNat < c.toNat from Nat.lt_trans hab hbc]
          · by_cases hcb : c.toNat < b.toNat
            · simp [hbc, hcb] at h2
            · have hbe : b.toNat = c.toNat := Nat.le_antisymm
                (Nat.le_of_not_lt hcb) (Nat.le_of_not_lt hbc)
              simp [show a.toNat < c.toNat from hbe ▸ hab]
        · by_cases hba : b.toNat < a.toNat
          · simp [hab, hba] at h1
          · have hae : a.toNat = b.toNat := Nat.le_antisymm
              (Nat.le_of_not_lt hba) (Nat.le_of_not_lt hab)
            by_cases hbc : b.toNat < c.toNat
            · simp [show a.toNat < c.toNat from hae ▸ hbc]
            · by_cases hcb : c.toNat < b.toNat
              · simp [hbc, hcb] at h2
              · have hbe : b.toNat = c.toNat := Nat.le_antisymm
                  (Nat.le_of_not_lt hcb) (Nat.le_of_not_lt hbc)
                simp [hab, hba] at h1
                simp [hbc, hcb] at h2
                have : ¬ a.toNat < c.toNat := by omega
                simp [this, show ¬ c.toNat < a.toNat by omega, ih bs cs h1 h2]

/-- Totality of the `updatedAt`-descending comparator used by
`load_project_data`'s sort. -/
theorem entryLe_total :
    ∀ (a b : StoryManifestEntry), (entryLe a b || entryLe b a) = true := by
  intro a b
  exact charListLe_total _ _

/-- Transitivity of the `updatedAt`-descending comparator. -/
theorem entryLe_trans :
    ∀ (a b c : StoryManifestEntry), entryLe a b = true → entryLe b c = true →
      entryLe a c = true := by
  intro a b c h1 h2
  exact charListLe_trans _ _ _ h2 h1

/-- Inserting a fresh key into the workspace map appends the binding. -/
theorem insertAssoc_of_notMem :
    ∀ (l : List (String × Workspace)) (k : String) (v : Workspace),
      k ∉ l.map (·.1) → insertAssoc l k v = l ++ [(k, v)] := by
  intro l k v h
  unfold insertAssoc
  rw [if_neg]
  intro hc
  apply h
  simp only [List.any_eq_true, beq_iff_eq] at hc
  obtain ⟨p, hpl, hpk⟩ := hc
  exact hpk ▸ List.mem_map_of_mem _ hpl

/-- Lookup finds the binding at the head. -/
theorem lookupAssoc_cons_self (k : String) (v : Workspace)
    (l : List (String × Workspace)) : lookupAssoc ((k, v) :: l) k = some v := by
  simp [lookupAssoc]

/-- Lookup skips a head binding with a different key. -/
theorem lookupAssoc_cons_other {k' k : String} (v : Workspace)
    (l : List (String × Workspace)) (h : k' ≠ k) :
    lookupAssoc ((k, v) :: l) k' = lookupAssoc l k' := by
  simp [lookupAssoc, List.find?_cons_of_neg, Ne.symm h]

/-- Rebuilding a zip of distinct keys by looking each key up in it
reproduces the zip. -/
theorem zip_lookup_self (d : Workspace) :
    ∀ (ids : List String) (wss : List Workspace),
      ids.Pairwise (· ≠ ·) → wss.length = ids.length →
      ids.map (fun k => (k, (lookupAssoc (ids.zip wss) k).getD d)) = ids.zip wss := by
  intro ids
  induction ids with
  | nil => intro wss _ _; simp
  | cons k ks ih =>
    intro wss hpw hlen
    cases wss with
    | nil => simp at hlen
    | cons w wws =>
      rw [List.pairwise_cons] at hpw
      simp only [List.zip_cons_cons, List.map_cons]
      rw [lookupAssoc_cons_self]
      have hmap : ks.map (fun k' =>
          (k', (lookupAssoc ((k, w) :: ks.zip wws) k').getD d)) =
          ks.map (fun k' => (k', (lookupAssoc (ks.zip wws) k').getD d)) := by
        apply List.map_congr_left
        intro k' hk'
        rw [lookupAssoc_cons_other _ _ (Ne.symm (hpw.1 k' hk'))]
      rw [hmap, ih wws hpw.2 (by simpa using hlen)]
      rfl

/-- A successful workspace-collection loop extends the accumulator with one
binding per entry, keyed by the story ids in order (when all keys are
distinct). -/
theorem loadLoop_ok_shape :
    ∀ (entries : List StoryManifestEntry) (root : Root)
      (acc : List (String × Workspace)) (root' : Root)
      (res : List (String × Workspace)),
      loadWorkspacesLoop root acc entries = (root', .ok res) →
      (acc.map (·.1) ++ entries.map (·.story.id)).Pairwise (· ≠ ·) →
      ∃ wss : List Workspace, wss.length = entries.length ∧
        res = acc ++ (entries.map (·.story.id)).zip wss := by
  intro entries
  induction entries with
  | nil =>
    intro root acc root' res h _
    simp only [loadWorkspacesLoop] at h
    cases h
    exact ⟨[], rfl, by simp⟩
  | cons e rest ih =>
    intro root acc root' res h hpw
    simp only [loadWorkspacesLoop] at h
    have hfresh : e.story.id ∉ acc.map (·.1) := by
      intro hc
      have := (List.pairwise_append.mp hpw).2.2 _ hc e.story.id
        (List.mem_cons_self _ _)
      exact this rfl
    rcases hread : (read_workspace (getDb
        (if (!dbExists root e.folderName && dbExists root e.story.id) = true then
          moveDb root e.story.id e.folderName
        else root) e.folderName)).2 with msg | w
    · rw [hread] at h
      dsimp only at h
      simp at h
    · rw [hread] at h
      dsimp only at h
      rw [insertAssoc_of_notMem _ _ _ hfresh] at h
      have hpw' : ((acc ++ [(e.story.id, w)]).map (·.1) ++
          rest.map (·.story.id)).Pairwise (· ≠ ·) := by
        simp only [List.map_append, List.map_cons, List.map_nil] at hpw ⊢
        rw [List.append_assoc]
        simpa using hpw
      obtain ⟨wss, hlen, hres⟩ := ih _ _ _ _ h hpw'
      refine ⟨w :: wss, by simp [hlen], ?_⟩
      rw [hres]
      simp [List.zip_cons_cons]

/-- When every entry's database is already present under its folder name,
the loop performs no migration, leaves the state unchanged, and returns the
workspaces read back from those databases. -/
theorem loadLoop_allPresent :
    ∀ (entries : List StoryManifestEntry) (root : Root)
      (acc : List (String × Workspace)) (wsOf : StoryManifestEntry → Workspace),
      (∀ e ∈ entries, getDb root e.folderName =
        .present (some (serializeRow (wsOf e)))) →
      (acc.map (·.1) ++ entries.map (·.story.id)).Pairwise (· ≠ ·) →
      loadWorkspacesLoop root acc entries =
        (root, .ok (acc ++ entries.map (fun e => (e.story.id, wsOf e)))) := by
  intro entries
  induction entries with
  | nil =>
    intro root acc wsOf _ _
    simp [loadWorkspacesLoop]
  | cons e rest ih =>
    intro root acc wsOf hdb hpw
    have hpres := hdb e (List.mem_cons_self e rest)
    have hcond : (!dbExists root e.folderName && dbExists root e.story.id) = false := by
      simp [dbExists, hpres]
    have hfresh : e.story.id ∉ acc.map (·.1) := by
      intro hc
      have := (List.pairwise_append.mp hpw).2.2 _ hc e.story.id
        (List.mem_cons_self _ _)
      exact this rfl
    have hpw' : ((acc ++ [(e.story.id, wsOf e)]).map (·.1) ++
        rest.map (·.story.id)).Pairwise (· ≠ ·) := by
      simp only [List.map_append, List.map_cons, List.map_nil] at hpw ⊢
      rw [List.append_assoc]
      simpa using hpw
    simp only [loadWorkspacesLoop, hcond, if_neg Bool.false_ne_true]
    rw [hpres, read_write_roundtrip]
    dsimp only
    rw [insertAssoc_of_notMem _ _ _ hfresh]
    rw [ih root _ wsOf (fun e' he' => hdb e' (List.mem_cons_of_mem e he')) hpw']
    simp

/-- The workspace-writing fold of `import_project` does not touch folders
outside the entry list. -/
theorem foldl_write_frame :
    ∀ (entries : List StoryManifestEntry) (root : Root)
      (wsOf : StoryManifestEntry → Workspace) (f : String),
      (∀ e ∈ entries, f ≠ e.folderName) →
      getDb (entries.foldl (fun r e => write_workspace r e.folderName (wsOf e)) root) f =
        getDb root f := by
  intro entries
  induction entries with
  | nil => intro root wsOf f _; rfl
  | cons e rest ih =>
    intro root wsOf f hf
    rw [List.foldl_cons, ih _ wsOf f (fun e' he' => hf e' (List.mem_cons_of_mem e he'))]
    exact getDb_setDb_other _ _ (hf e (List.mem_cons_self e rest))

/-- After `import_project`'s workspace-writing fold over entries with
distinct folder names, each entry's folder holds exactly its serialized
workspace. -/
theorem foldl_write_getDb :
    ∀ (entries : List StoryManifestEntry) (root : Root)
      (wsOf : StoryManifestEntry → Workspace),
      (entries.map (·.folderName)).Pairwise (· ≠ ·) →
      ∀ e ∈ entries,
        getDb (entries.foldl (fun r e' => write_workspace r e'.folderName (wsOf e')) root)
          e.folderName = .present (some (serializeRow (wsOf e))) := by
  intro entries
  induction entries with
  | nil => intro root wsOf _ e he; cases he
  | cons e0 rest ih =>
    intro root wsOf hpw e he
    simp only [List.map_cons] at hpw
    rw [List.pairwise_cons] at hpw
    rw [List.foldl_cons]
    rcases List.mem_cons.mp he with rfl | he
    · rw [foldl_write_frame rest _ wsOf e.folderName
        (fun e' he' => hpw.1 e'.folderName (List.mem_map_of_mem _ he'))]
      exact getDb_setDb_self _ _ _
    · exact ih _ wsOf hpw.2 e he

/-- Importing a well-formed payload (correct `app`, current or older
schema, distinct story ids and recomputed folder names, stories sorted by
`updatedAt` descending, workspace map keyed by the story ids in order)
into an empty root succeeds and a subsequent load reproduces the payload's
stories, workspaces, and shared library exactly. -/
theorem import_then_load :
    ∀ (now2 : String) (payload : ExportedProjectData) (wss : List Workspace),
      payload.app = "takecopter" →
      payload.schemaVersion ≤ CURRENT_SCHEMA_VERSION →
      (payload.data.stories.map (·.id)).Pairwise (· ≠ ·) →
      (payload.data.stories.map
        (fun s => make_story_folder_name s.title s.id)).Pairwise (· ≠ ·) →
      payload.data.stories.Pairwise
        (fun a b => strLe b.updatedAt a.updatedAt = true) →
      payload.data.workspaces = (payload.data.stories.map (·.id)).zip wss →
      wss.length = payload.data.stories.length →
      (import_project emptyRoot now2 payload).2 = .ok () ∧
      (load_project_data (import_project emptyRoot now2 payload).1).2 =
        .ok { stories := payload.data.stories
              workspaces := payload.data.workspaces
              sharedLibrary := payload.data.sharedLibrary } := by
  intro now2 payload wss happ hver hids hfolders hsorted hzip hlen
  have himp : import_project emptyRoot now2 payload =
      ((payload.data.stories.map (fun story =>
          ({ story := story
             folderName := make_story_folder_name story.title story.id } :
            StoryManifestEntry))).foldl
        (fun r e => write_workspace r e.folderName
          ((lookupAssoc payload.data.workspaces e.story.id).getD defaultWorkspace))
        (write_manifest (ensure_root_layout emptyRoot now2)
          { app := "takecopter", schemaVersion := CURRENT_SCHEMA_VERSION
            createdAt := now2, sharedLibrary := payload.data.sharedLibrary
            stories := (payload.data.stories.map (fun story =>
              { story := story
                folderName := make_story_folder_name story.title story.id })) }),
       .ok ()) := by
    simp only [import_project,
      if_neg (show ¬ payload.app ≠ "takecopter" from by simp [happ]),
      if_neg (not_lt.mpr hver)]
    rfl
  rw [himp]
  refine ⟨rfl, ?_⟩
  -- facts about the imported root
  have hfoldersPW : ((payload.data.stories.map (fun story =>
      ({ story := story
         folderName := make_story_folder_name story.title story.id } :
        StoryManifestEntry))).map (·.folderName)).Pairwise (· ≠ ·) := by
    rw [List.map_map]
    exact hfolders
  have hsortedPW : (payload.data.stories.map (fun story =>
      ({ story := story
         folderName := make_story_folder_name story.title story.id } :
        StoryManifestEntry))).Pairwise (fun a b => entryLe a b = true) :=
    List.pairwise_map.mpr hsorted
  have hdb := foldl_write_getDb
    (payload.data.stories.map (fun story =>
      { story := story
        folderName := make_story_folder_name story.title story.id }))
    (write_manifest (ensure_root_layout emptyRoot now2)
      { app := "takecopter", schemaVersion := CURRENT_SCHEMA_VERSION
        createdAt := now2, sharedLibrary := payload.data.sharedLibrary
        stories := (payload.data.stories.map (fun story =>
          { story := story
            folderName := make_story_folder_name story.title story.id })) })
    (fun e => (lookupAssoc payload.data.workspaces e.story.id).getD defaultWorkspace)
    hfoldersPW
  have hidsPW : (([] : List (String × Workspace)).map (·.1) ++
      (payload.data.stories.map (fun story =>
        ({ story := story
           folderName := make_story_folder_name story.title story.id } :
          StoryManifestEntry))).map (·.story.id)).Pairwise (· ≠ ·) := by
    rw [List.map_map]
    simpa using hids
  have hloop := loadLoop_allPresent
    (payload.data.stories.map (fun story =>
      { story := story
        folderName := make_story_folder_name story.title story.id }))
    _ []
    (fun e => (lookupAssoc payload.data.workspaces e.story.id).getD defaultWorkspace)
    hdb hidsPW
  have hread : read_manifest
      ((payload.data.stories.map (fun story =>
        ({ story := story
           folderName := make_story_folder_name story.title story.id } :
          StoryManifestEntry))).foldl
        (fun r e => write_workspace r e.folderName
          ((lookupAssoc payload.data.workspaces e.story.id).getD defaultWorkspace))
        (write_manifest (ensure_root_layout emptyRoot now2)
          { app := "takecopter", schemaVersion := CURRENT_SCHEMA_VERSION
            createdAt := now2, sharedLibrary := payload.data.sharedLibrary
            stories := (payload.data.stories.map (fun story =>
              { story := story
                folderName := make_story_folder_name story.title story.id })) })) =
      .ok { app := "takecopter", schemaVersion := CURRENT_SCHEMA_VERSION
            createdAt := now2, sharedLibrary := payload.data.sharedLibrary
            stories := (payload.data.stories.map (fun story =>
              { story := story
                folderName := make_story_folder_name story.title story.id })) } := by
    rw [read_manifest_congr _
      (write_manifest (ensure_root_layout emptyRoot now2)
        { app := "takecopter", schemaVersion := CURRENT_SCHEMA_VERSION
          createdAt := now2, sharedLibrary := payload.data.sharedLibrary
          stories := (payload.data.stories.map (fun story =>
            { story := story
              folderName := make_story_folder_name story.title story.id })) })
      (foldl_write_workspace_manifestFile _ _ _)]
    exact read_manifest_write_manifest _ _ rfl
  have hsortEq : sortStories (payload.data.stories.map (fun story =>
      ({ story := story
         folderName := make_story_folder_name story.title story.id } :
        StoryManifestEntry))) =
      payload.data.stories.map (fun story =>
        { story := story
          folderName := make_story_folder_name story.title story.id }) :=
    List.mergeSort_of_sorted hsortedPW
  simp only [load_project_data, hread]
  rw [hsortEq, hloop]
  dsimp only
  rw [Except.ok.injEq, ProjectData.mk.injEq]
  refine ⟨?_, ?_, rfl⟩
  · rw [List.map_map]
    exact (List.map_congr_left (fun a _ => rfl)).trans (List.map_id _)
  · rw [List.nil_append, List.map_map]
    conv_rhs => rw [hzip]
    have hz := zip_lookup_self defaultWorkspace (payload.data.stories.map (·.id))
      wss hids (by simpa using hlen)
    rw [← hz, List.map_map]
    apply List.map_congr_left
    intro s _
    simp only [Function.comp_apply]
    rw [hzip]

/-- Claim C1: `export_project` followed by `import_project` into an empty
active root reproduces an identical story list and an identical per-story
workspace map (and shared library); only `exportedAt` is dropped.  The
distinctness hypotheses on story ids and recomputed folder names stand in
for reachability from an empty root (fresh UUIDs with distinct 8-character
prefixes provide them). -/
theorem c1_export_import_roundtrip :
    ∀ (r r1 : Root) (now1 now2 : String) (payload : ExportedProjectData),
      export_project r now1 = (r1, .ok payload) →
      (payload.data.stories.map (·.id)).Pairwise (· ≠ ·) →
      (payload.data.stories.map
        (fun s => make_story_folder_name s.title s.id)).Pairwise (· ≠ ·) →
      (import_project emptyRoot now2 payload).2 = .ok () ∧
      (load_project_data (import_project emptyRoot now2 payload).1).2 =
        .ok { stories := payload.data.stories
              workspaces := payload.data.workspaces
              sharedLibrary := payload.data.sharedLibrary } := by
  intro r r1 now1 now2 payload hexp hids hfolders
  simp only [export_project] at hexp
  rcases hload : load_project_data r with ⟨rx, resx⟩
  rw [hload] at hexp
  cases resx with
  | error msg => simp at hexp
  | ok data =>
    dsimp only at hexp
    rw [Prod.mk.injEq] at hexp
    injection hexp.2 with hpay
    subst hpay
    simp only [load_project_data] at hload
    rcases hm : read_manifest r with msg | m
    · rw [hm] at hload
      simp at hload
    · rw [hm] at hload
      dsimp only at hload
      rcases hloop : loadWorkspacesLoop r [] (sortStories m.stories) with ⟨rootL, resL⟩
      rw [hloop] at hload
      cases resL with
      | error msg => simp at hload
      | ok ws =>
        dsimp only at hload
        rw [Prod.mk.injEq] at hload
        injection hload.2 with hdata
        subst hdata
        have hsortedS : (sortStories m.stories).Pairwise
            (fun a b => entryLe a b = true) :=
          List.sorted_mergeSort entryLe_trans entryLe_total m.stories
        have hids' : ((sortStories m.stories).map (·.story.id)).Pairwise (· ≠ ·) := by
          simpa [List.map_map, Function.comp] using hids
        obtain ⟨wss, hlen, hws⟩ := loadLoop_ok_shape _ _ _ _ _ hloop
          (by simpa using hids')
        rw [List.nil_append] at hws
        have hws2 : ws =
            (((sortStories m.stories).map (·.story)).map (fun x => x.id)).zip wss := by
          rw [List.map_map]
          exact hws
        exact import_then_load now2 _ wss rfl (le_refl _) hids hfolders
          (List.pairwise_map.mpr hsortedS) hws2 (by simpa using hlen)

/-- Witness for C1: exporting the one-story root `rootA` and importing the
resulting `payloadA` into the empty root round-trips exactly. -/
theorem c1_witness :
    export_project rootA "T1" = (rootA, .ok payloadA) ∧
    (import_project emptyRoot "T2" payloadA).2 = .ok () ∧
    (load_project_data (import_project emptyRoot "T2" payloadA).1).2 =
      .ok { stories := payloadA.data.stories
            workspaces := payloadA.data.workspaces
            sharedLibrary := payloadA.data.sharedLibrary } := by
  have hexp : export_project rootA "T1" = (rootA, .ok payloadA) := by
    simp [export_project, load_project_data, sortStories, read_manifest, rootA,
      manifestA, CURRENT_SCHEMA_VERSION, List.mergeSort_singleton,
      loadWorkspacesLoop, dbExists, getDb, read_workspace, serializeRow,
      insertAssoc, payloadA, wsA, storyA]
  have h := c1_export_import_roundtrip rootA rootA "T1" "T2" payloadA hexp
    (by simp [payloadA, storyA]) (by simp [payloadA, storyA])
  exact ⟨hexp, h.1, h.2⟩
